import Mathlib

/-!
Formal model of the image-viewer core in `src/program.rs`: the navigation
state machine (ordered image list and current index), the skip-size
heuristic, the copy/move/delete mutation protocol, and the viewport-fit
geometry.

Machine-integer conventions.  Rust `usize` and `u32` values are modelled as
`Nat`.  Arithmetic that can underflow in the source is modelled with an
explicit wrap modulo `2 ^ 64` (resp. `2 ^ 32`), the behaviour of overflowing
subtraction in a Rust release build (a debug build would abort instead; the
wrap is what the shipped binary does).  Operations that abort the process in
the source (out-of-bounds `Vec` indexing, a failed `assert`, the
`unwrap_or_else` fallbacks) are modelled by returning `none`.

The external filesystem is modelled by an oracle (`FsEnv`) saying which
external calls would succeed, and every mutation operation also returns the
list of filesystem actions it performed, so that frame conditions
("the filesystem was not touched") are statable.

`f32` arithmetic in the geometry functions is modelled exactly: a float is
represented by the rational number it denotes, and each operation rounds its
exact rational result to the nearest value with a 24-bit significand (ties
to even), as IEEE 754 round-to-nearest prescribes.  All values arising from
`u32` inputs here lie in the normal finite range of `f32`, so neither
subnormals nor overflow to infinity can occur and the model is exact.
-/

namespace Riv

/-- File paths (`PathBuf` in the source) are modelled as strings. -/
abbrev Path := String

/-- `usize` subtraction as compiled in a release build: wraps modulo
`2 ^ 64` on underflow. -/
def usizeSub (a b : Nat) : Nat := (a + (2 ^ 64 - b % 2 ^ 64)) % 2 ^ 64

/-- `compute_skip_size` (src/program.rs:23-29): the skip step computed from
the image list, `len / 10 + 1` with integer division, floored at 1. -/
def compute_skip_size (images : List Path) : Nat :=
  let chunks : Nat := 10
  let skip_size : Nat := images.length / chunks + 1
  max 1 skip_size

/-- The state owned by `Program` (src/program.rs:32-40) that the core logic
reads and writes: the tracked image list, the destination folder and the
current index.  The SDL handles are external resources with no bearing on
the claims and are omitted. -/
structure Program where
  images : List Path
  dest_folder : Path
  index : Nat
deriving DecidableEq

/-- `Program::increment` (src/program.rs:115-127).  The guard
`self.index < self.images.len() - step` uses `usize` subtraction, which
wraps when `step > len`; the index update `self.index += step` likewise
wraps modulo `2 ^ 64`. -/
def increment (s : Program) (step : Nat) : Program :=
  if s.images.isEmpty || s.images.length == 1 then s
  else if s.index < usizeSub s.images.length step then
    { s with index := (s.index + step) % 2 ^ 64 }
  else
    { s with index := s.images.length - 1 }

/-- `Program::decrement` (src/program.rs:145-154): subtract `step`,
saturating at 0 (the subtraction is guarded, so it never underflows). -/
def decrement (s : Program) (step : Nat) : Program :=
  if s.index ≥ step then { s with index := s.index - step }
  else { s with index := 0 }

/-- `Program::skip_forward` (src/program.rs:157-160). -/
def skip_forward (s : Program) : Program :=
  increment s (compute_skip_size s.images)

/-- `Program::skip_backward` (src/program.rs:163-166). -/
def skip_backward (s : Program) : Program :=
  decrement s (compute_skip_size s.images)

/-- `Program::first` (src/program.rs:168-171). -/
def first (s : Program) : Program :=
  { s with index := 0 }

/-- `Program::last` (src/program.rs:173-180). -/
def last (s : Program) : Program :=
  if s.images.isEmpty then { s with index := 0 }
  else { s with index := s.images.length - 1 }

/-- `Program::remove_image` (src/program.rs:135-143): `Vec::remove(index)`
aborts when `index` is out of bounds (modelled by `none`); afterwards, if
the removed position is past the new length and the current index is
nonzero, the current index is decremented. -/
def remove_image (s : Program) (index : Nat) : Option Program :=
  if index < s.images.length then
    let images := s.images.eraseIdx index
    some { s with
      images := images,
      index := if index ≥ images.length ∧ s.index ≠ 0 then s.index - 1 else s.index }
  else none

/-- The essential content of a render request issued by `Program::render`
(src/program.rs:86-107): either a blank cleared frame, or a request to load
and display the image at the current index. -/
inductive RenderReq where
  | blank
  | image (p : Path)
deriving DecidableEq

/-- `Program::render` (src/program.rs:86-107), reduced to the request it
issues: a blank frame when the list is empty, otherwise the image at
`self.images[self.index]` (out-of-bounds indexing aborts: `none`). -/
def render_request (s : Program) : Option RenderReq :=
  if s.images.isEmpty then some RenderReq.blank
  else (s.images[s.index]?).map RenderReq.image

/-- A filesystem action performed by a mutation operation. -/
inductive FsOp where
  | createDirAll (p : Path)
  | copyFile (src dst : Path)
  | moveFile (src dst : Path)
  | removeFile (p : Path)
deriving DecidableEq

/-- Oracle for the external filesystem: which calls would succeed, and what
`Path::file_name` yields on a given path (`none` models the `None` case of
`file_name()`). -/
structure FsEnv where
  createDirAllOk : Bool
  fileName : Path → Option Path
  copyOk : Bool
  moveOk : Bool
  removeOk : Bool

/-- `Program::construct_dest_filepath` (src/program.rs:182-197): create the
destination folder (an `AlreadyExists` outcome counts as success, any other
failure propagates as an error), then join the destination folder with the
file name of the source path.  Returns the result together with the
filesystem actions performed. -/
def construct_dest_filepath (s : Program) (fs : FsEnv) (src_path : Path) :
    Except String Path × List FsOp :=
  if fs.createDirAllOk then
    match fs.fileName src_path with
    | none => (Except.error "failed to read filename for current image",
        [FsOp.createDirAll s.dest_folder])
    | some f => (Except.ok (s.dest_folder ++ "/" ++ f),
        [FsOp.createDirAll s.dest_folder])
  else (Except.error "create_dir_all failed", [FsOp.createDirAll s.dest_folder])

/-- `Program::copy_image` (src/program.rs:201-217): error on an empty list;
abort (`none`) if the index is out of bounds; build the destination path;
copy the file; the tracked list and index are threaded through unchanged.
Error strings other than the empty-list message abstract the source's
formatted messages. -/
def copy_image (s : Program) (fs : FsEnv) :
    Option (Program × Except String Unit × List FsOp) :=
  if s.images.isEmpty then some (s, Except.error "No image to copy", [])
  else
    match s.images[s.index]? with
    | none => none
    | some filepath =>
      match construct_dest_filepath s fs filepath with
      | (Except.error e, tr) => some (s, Except.error e, tr)
      | (Except.ok newname, tr) =>
        if fs.copyOk then
          some (s, Except.ok (), tr ++ [FsOp.copyFile filepath newname])
        else
          some (s, Except.error "copy failed", tr ++ [FsOp.copyFile filepath newname])

/-- `Program::move_image` (src/program.rs:220-253): error on an empty list;
the `assert` that the index is in bounds aborts otherwise (`none`); build
the destination path; attempt the filesystem move and, only on success,
remove the image from the tracked list via `remove_image`. -/
def move_image (s : Program) (fs : FsEnv) :
    Option (Program × Except String Unit × List FsOp) :=
  if s.images.isEmpty then some (s, Except.error "no images to move", [])
  else if h : s.index < s.images.length then
    match construct_dest_filepath s fs (s.images[s.index]) with
    | (Except.error e, tr) => some (s, Except.error e, tr)
    | (Except.ok newname, tr) =>
      if fs.moveOk then
        (remove_image s s.index).map
          (fun s2 => (s2, Except.ok (), tr ++ [FsOp.moveFile (s.images[s.index]) newname]))
      else some (s, Except.error "Failed to remove image",
          tr ++ [FsOp.moveFile (s.images[s.index]) newname])
  else none

/-- `Program::delete_image` (src/program.rs:256-288): error on an empty
list; the `assert` that the index is in bounds aborts otherwise (`none`);
attempt the filesystem removal and, only on success, remove the image from
the tracked list via `remove_image`. -/
def delete_image (s : Program) (fs : FsEnv) :
    Option (Program × Except String Unit × List FsOp) :=
  if s.images.isEmpty then some (s, Except.error "no images to delete", [])
  else if h : s.index < s.images.length then
    if fs.removeOk then
      (remove_image s s.index).map
        (fun s2 => (s2, Except.ok (), [FsOp.removeFile (s.images[s.index])]))
    else some (s, Except.error "Failed to remove image file",
        [FsOp.removeFile (s.images[s.index])])
  else none

/-! ### Helper lemmas -/

lemma two_pow_64_eq : (2 : Nat) ^ 64 = 18446744073709551616 := by norm_num

lemma usizeSub_eq_sub {a b : Nat} (hba : b ≤ a) (ha : a < 2 ^ 64) :
    usizeSub a b = a - b := by
  unfold usizeSub
  rw [two_pow_64_eq] at *
  omega

lemma compute_skip_size_eq (l : List Path) :
    compute_skip_size l = l.length / 10 + 1 := by
  unfold compute_skip_size
  exact Nat.max_eq_right (by omega)

lemma increment_small (s : Program) (step : Nat)
    (h : s.images.length ≤ 1) : increment s step = s := by
  unfold increment
  rcases Nat.le_one_iff_eq_zero_or_eq_one.mp h with h0 | h1
  · rw [if_pos]
    simp [List.isEmpty_iff, List.length_eq_zero.mp h0]
  · rw [if_pos]
    simp [h1]

lemma increment_images (s : Program) (step : Nat) :
    (increment s step).images = s.images := by
  unfold increment
  split
  · rfl
  · split <;> rfl

lemma increment_index_lt (s : Program) (step : Nat)
    (h2 : 2 ≤ s.images.length) (hlen : s.images.length < 2 ^ 64)
    (hs1 : 1 ≤ step) (hs2 : step ≤ s.images.length)
    (hidx : s.index < s.images.length) :
    (increment s step).index < s.images.length := by
  unfold increment
  have hcond : (s.images.isEmpty || s.images.length == 1) = false := by
    have hne : s.images ≠ [] := by
      intro h
      rw [h] at h2
      simp at h2
    simp [List.isEmpty_iff, hne]
    omega
  rw [hcond]
  simp only [Bool.false_eq_true, if_false]
  rw [usizeSub_eq_sub hs2 hlen]
  split
  · have hlt : s.index + step < s.images.length := by omega
    have hmod : (s.index + step) % 2 ^ 64 = s.index + step :=
      Nat.mod_eq_of_lt (lt_trans hlt hlen)
    show (s.index + step) % 2 ^ 64 < s.images.length
    rw [hmod]
    exact hlt
  · simp
    omega

lemma decrement_images (s : Program) (step : Nat) :
    (decrement s step).images = s.images := by
  unfold decrement
  split <;> rfl

lemma decrement_index_le (s : Program) (step : Nat) :
    (decrement s step).index ≤ s.index := by
  unfold decrement
  split <;> simp

/-! ### C5: skip-size heuristic -/

/-- C5: `compute_skip_size` returns `max 1 (n / 10 + 1)` with integer
division; in particular it maps length 0 to 1, 9 to 1, 10 to 2 and 100 to
11, and it is monotone non-decreasing in the list length. -/
theorem C5_skip_size_heuristic :
    (∀ l : List Path, compute_skip_size l = max 1 (l.length / 10 + 1)) ∧
    compute_skip_size [] = 1 ∧
    compute_skip_size (List.replicate 9 "p") = 1 ∧
    compute_skip_size (List.replicate 10 "p") = 2 ∧
    compute_skip_size (List.replicate 100 "p") = 11 ∧
    (∀ l1 l2 : List Path, l1.length ≤ l2.length →
      compute_skip_size l1 ≤ compute_skip_size l2) := by
  refine ⟨fun l => rfl, rfl, ?_, ?_, ?_, ?_⟩
  · rw [compute_skip_size_eq]
    simp
  · rw [compute_skip_size_eq]
    simp
  · rw [compute_skip_size_eq]
    simp
  · intro l1 l2 h
    rw [compute_skip_size_eq, compute_skip_size_eq]
    have := Nat.div_le_div_right (c := 10) h
    omega

/-- Witness for C5 at concrete lists of length 1 and 2. -/
theorem C5_skip_size_heuristic_witness :
    compute_skip_size ["a"] ≤ compute_skip_size ["a", "b"] :=
  C5_skip_size_heuristic.2.2.2.2.2 ["a"] ["a", "b"] (by decide)

/-! ### C10: the steps the event loop actually passes never underflow -/

/-- C10: for a non-empty list, `compute_skip_size` lies between 1 and the
list length, so for the only step values the event loop passes to
`increment` — 1 for Next and `compute_skip_size` for SkipForward — the
`usize` subtraction `self.images.len() - step` inside `increment` never
wraps (it equals the exact natural subtraction). -/
theorem C10_actual_steps_never_underflow (s : Program)
    (h1 : 1 ≤ s.images.length) (hlen : s.images.length < 2 ^ 64) :
    1 ≤ compute_skip_size s.images ∧
    compute_skip_size s.images ≤ s.images.length ∧
    usizeSub s.images.length 1 = s.images.length - 1 ∧
    usizeSub s.images.length (compute_skip_size s.images) =
      s.images.length - compute_skip_size s.images := by
  have hss := compute_skip_size_eq s.images
  have hb : compute_skip_size s.images ≤ s.images.length := by
    rw [hss]
    omega
  exact ⟨by rw [hss]; omega, hb, usizeSub_eq_sub h1 hlen, usizeSub_eq_sub hb hlen⟩

/-- Witness for C10 on a one-image program. -/
theorem C10_actual_steps_never_underflow_witness :
    1 ≤ compute_skip_size (Program.mk ["a"] "d" 0).images ∧
    compute_skip_size (Program.mk ["a"] "d" 0).images ≤
      (Program.mk ["a"] "d" 0).images.length ∧
    usizeSub (Program.mk ["a"] "d" 0).images.length 1 =
      (Program.mk ["a"] "d" 0).images.length - 1 ∧
    usizeSub (Program.mk ["a"] "d" 0).images.length
        (compute_skip_size (Program.mk ["a"] "d" 0).images) =
      (Program.mk ["a"] "d" 0).images.length -
        compute_skip_size (Program.mk ["a"] "d" 0).images :=
  C10_actual_steps_never_underflow (Program.mk ["a"] "d" 0) (by decide)
    (by norm_num)

/-! ### C4: navigation clamping -/

/-- C4 counterexample: with two images, index 0 and step 3, the `usize`
subtraction in the guard of `increment` wraps, the guard passes, and the
index becomes 3, which is not less than the length 2.  This refutes the
claim, which quantifies over every step `≥ 1`. -/
theorem C4_counterexample :
    (increment (Program.mk ["a", "b"] "d" 0) 3).index = 3 ∧
    (increment (Program.mk ["a", "b"] "d" 0) 3).images.length = 2 ∧
    ¬ (increment (Program.mk ["a", "b"] "d" 0) 3).index <
        (increment (Program.mk ["a", "b"] "d" 0) 3).images.length := by
  decide

/-- C4 amended: for a list of length `N ≥ 2` and a current index `< N`,
`increment step` stays below `N` for every step with `1 ≤ step ≤ N`
(saturating at `N - 1`), `decrement step` stays below `N` for every step
and saturates at 0, and neither touches the image list. -/
theorem C4_amended_navigation_clamping (s : Program) (step : Nat)
    (h2 : 2 ≤ s.images.length) (hlen : s.images.length < 2 ^ 64)
    (hidx : s.index < s.images.length) :
    (1 ≤ step → step ≤ s.images.length →
      (increment s step).index < s.images.length) ∧
    (increment s step).images = s.images ∧
    (decrement s step).index < s.images.length ∧
    (s.index ≤ step → (decrement s step).index = 0) ∧
    (decrement s step).images = s.images := by
  refine ⟨fun hs1 hs2 => increment_index_lt s step h2 hlen hs1 hs2 hidx,
    increment_images s step, ?_, ?_, decrement_images s step⟩
  · exact lt_of_le_of_lt (decrement_index_le s step) hidx
  · intro hle
    unfold decrement
    split
    · simp
      omega
    · rfl

/-- Witness for the amended C4 on a two-image program with step 1. -/
theorem C4_amended_navigation_clamping_witness :
    (1 ≤ 1 → 1 ≤ (Program.mk ["a", "b"] "d" 0).images.length →
      (increment (Program.mk ["a", "b"] "d" 0) 1).index <
        (Program.mk ["a", "b"] "d" 0).images.length) ∧
    (increment (Program.mk ["a", "b"] "d" 0) 1).images =
      (Program.mk ["a", "b"] "d" 0).images ∧
    (decrement (Program.mk ["a", "b"] "d" 0) 1).index <
      (Program.mk ["a", "b"] "d" 0).images.length ∧
    ((Program.mk ["a", "b"] "d" 0).index ≤ 1 →
      (decrement (Program.mk ["a", "b"] "d" 0) 1).index = 0) ∧
    (decrement (Program.mk ["a", "b"] "d" 0) 1).images =
      (Program.mk ["a", "b"] "d" 0).images :=
  C4_amended_navigation_clamping (Program.mk ["a", "b"] "d" 0) 1 (by decide)
    (by norm_num) (by decide)

/-! ### remove_image and the index invariant -/

/-- The documented data-model invariant: the index is in bounds when the
list is non-empty and is 0 when the list is empty. -/
def IndexInv (s : Program) : Prop :=
  (s.images ≠ [] → s.index < s.images.length) ∧ (s.images = [] → s.index = 0)

lemma remove_image_some (s : Program) (i : Nat) (hil : i < s.images.length) :
    ∃ s2, remove_image s i = some s2 ∧
      s2.images = s.images.eraseIdx i ∧
      s2.images.length = s.images.length - 1 ∧
      s2.index = (if s.images.length - 1 ≤ i ∧ s.index ≠ 0
        then s.index - 1 else s.index) ∧
      s2.dest_folder = s.dest_folder := by
  unfold remove_image
  rw [if_pos hil]
  have hlen : (s.images.eraseIdx i).length = s.images.length - 1 := by
    rw [List.length_eraseIdx]
    simp [hil]
  refine ⟨_, rfl, rfl, hlen, ?_, rfl⟩
  show (if i ≥ (s.images.eraseIdx i).length ∧ s.index ≠ 0
      then s.index - 1 else s.index) = _
  rw [hlen]

lemma remove_image_index_inv (s s2 : Program)
    (hil : s.index < s.images.length)
    (h : remove_image s s.index = some s2) : IndexInv s2 := by
  obtain ⟨t, ht, _, htlen, htidx, _⟩ := remove_image_some s s.index hil
  rw [ht, Option.some.injEq] at h
  rw [← h]
  constructor
  · intro hne
    have hpos : 0 < t.images.length := List.length_pos.mpr hne
    rw [htlen] at hpos
    rw [htidx, htlen]
    split
    · rename_i hc
      omega
    · rename_i hc
      rcases not_and_or.mp hc with hc1 | hc1
      · omega
      · have h0 := not_not.mp hc1
        omega
  · intro hnil
    have h0 : t.images.length = 0 := by rw [hnil]; rfl
    rw [htlen] at h0
    rw [htidx]
    split
    · rename_i hc
      omega
    · omega

/-! ### C3: removeCurrent correctness -/

/-- C3: on a non-empty list, removing the element at the current index
`i = CurrentIndex < len` succeeds, deletes exactly the element at position
`i`, decrements the index by 1 exactly when `i` is at least the new length
and the index is nonzero, and re-establishes the index invariant. -/
theorem C3_remove_current (s : Program) (i : Nat)
    (hne : s.images ≠ []) (hil : i < s.images.length) (hcur : i = s.index) :
    ∃ s2, remove_image s i = some s2 ∧
      s2.images = s.images.take i ++ s.images.drop (i + 1) ∧
      s2.images.length = s.images.length - 1 ∧
      s2.index = (if s.images.length - 1 ≤ i ∧ s.index ≠ 0
        then s.index - 1 else s.index) ∧
      (s2.images ≠ [] → s2.index < s2.images.length) ∧
      (s2.images = [] → s2.index = 0) := by
  obtain ⟨s2, h, himg, hlen, hidx, _⟩ := remove_image_some s i hil
  have hinv : IndexInv s2 := by
    rw [hcur] at h hil
    exact remove_image_index_inv s s2 hil h
  exact ⟨s2, h, by rw [himg, List.eraseIdx_eq_take_drop_succ], hlen, hidx,
    hinv.1, hinv.2⟩

/-- Witness for C3: the spec example, list `[A, B, C]` at index 2 becomes
`[A, B]` at index 1. -/
theorem C3_remove_current_witness :
    ∃ s2, remove_image (Program.mk ["A", "B", "C"] "d" 2) 2 = some s2 ∧
      s2.images = (Program.mk ["A", "B", "C"] "d" 2).images.take 2 ++
        (Program.mk ["A", "B", "C"] "d" 2).images.drop (2 + 1) ∧
      s2.images.length = (Program.mk ["A", "B", "C"] "d" 2).images.length - 1 ∧
      s2.index = (if (Program.mk ["A", "B", "C"] "d" 2).images.length - 1 ≤ 2 ∧
          (Program.mk ["A", "B", "C"] "d" 2).index ≠ 0
        then (Program.mk ["A", "B", "C"] "d" 2).index - 1
        else (Program.mk ["A", "B", "C"] "d" 2).index) ∧
      (s2.images ≠ [] → s2.index < s2.images.length) ∧
      (s2.images = [] → s2.index = 0) :=
  C3_remove_current (Program.mk ["A", "B", "C"] "d" 2) 2 (by decide) (by decide)
    rfl

/-! ### C1: the index invariant is preserved by every dispatched operation -/

/-- The operations the event loop (src/program.rs:294-321) dispatches to
the navigation state: Next (`increment 1`), Prev (`decrement 1`),
SkipForward, SkipBack, First, Last, and the list removal performed by a
move or delete whose filesystem operation succeeded. -/
inductive Step : Program → Program → Prop where
  | next (s : Program) : Step s (increment s 1)
  | prev (s : Program) : Step s (decrement s 1)
  | skipF (s : Program) : Step s (skip_forward s)
  | skipB (s : Program) : Step s (skip_backward s)
  | toFirst (s : Program) : Step s (first s)
  | toLast (s : Program) : Step s (last s)
  | moveOk (s : Program) (fs : FsEnv) (s2 : Program) (tr : List FsOp)
      (h : move_image s fs = some (s2, Except.ok (), tr)) : Step s s2
  | deleteOk (s : Program) (fs : FsEnv) (s2 : Program) (tr : List FsOp)
      (h : delete_image s fs = some (s2, Except.ok (), tr)) : Step s s2

lemma increment_inv (s : Program) (step : Nat)
    (hlen : s.images.length < 2 ^ 64)
    (hstep : 2 ≤ s.images.length → 1 ≤ step ∧ step ≤ s.images.length)
    (hinv : IndexInv s) : IndexInv (increment s step) := by
  by_cases h2 : 2 ≤ s.images.length
  · obtain ⟨hs1, hs2⟩ := hstep h2
    have hne : s.images ≠ [] := by
      intro h
      rw [h] at h2
      simp at h2
    have hlt := increment_index_lt s step h2 hlen hs1 hs2 (hinv.1 hne)
    constructor
    · intro _
      rw [increment_images]
      exact hlt
    · intro h
      rw [increment_images] at h
      exact absurd h hne
  · rw [increment_small s step (by omega)]
    exact hinv

lemma decrement_inv (s : Program) (step : Nat) (hinv : IndexInv s) :
    IndexInv (decrement s step) := by
  constructor
  · intro hne
    rw [decrement_images] at hne ⊢
    exact lt_of_le_of_lt (decrement_index_le s step) (hinv.1 hne)
  · intro hnil
    rw [decrement_images] at hnil
    have h0 := hinv.2 hnil
    unfold decrement
    split <;> simp <;> omega

lemma move_image_ok_inversion (s : Program) (fs : FsEnv) (s2 : Program)
    (tr : List FsOp) (h : move_image s fs = some (s2, Except.ok (), tr)) :
    s.index < s.images.length ∧ remove_image s s.index = some s2 := by
  unfold move_image at h
  split at h
  · simp at h
  · split at h
    · rename_i hidx
      refine ⟨hidx, ?_⟩
      split at h
      · simp at h
      · split at h
        · rw [Option.map_eq_some'] at h
          obtain ⟨a, ha, hae⟩ := h
          simp only [Prod.mk.injEq] at hae
          rw [ha, hae.1]
        · simp at h
    · exact absurd h (by simp)

lemma delete_image_ok_inversion (s : Program) (fs : FsEnv) (s2 : Program)
    (tr : List FsOp) (h : delete_image s fs = some (s2, Except.ok (), tr)) :
    s.index < s.images.length ∧ remove_image s s.index = some s2 := by
  unfold delete_image at h
  split at h
  · simp at h
  · split at h
    · rename_i hidx
      refine ⟨hidx, ?_⟩
      split at h
      · rw [Option.map_eq_some'] at h
        obtain ⟨a, ha, hae⟩ := h
        simp only [Prod.mk.injEq] at hae
        rw [ha, hae.1]
      · simp at h
    · exact absurd h (by simp)

lemma first_inv (s : Program) : IndexInv (first s) :=
  ⟨fun hne => List.length_pos.mpr hne, fun _ => rfl⟩

lemma last_images (s : Program) : (last s).images = s.images := by
  unfold last
  split <;> rfl

lemma last_inv (s : Program) : IndexInv (last s) := by
  unfold last
  split
  · rename_i hemp
    rw [List.isEmpty_iff] at hemp
    exact ⟨fun hne => absurd hemp hne, fun _ => rfl⟩
  · rename_i hemp
    rw [List.isEmpty_iff] at hemp
    refine ⟨fun _ => ?_, fun hnil => absurd hnil hemp⟩
    show s.images.length - 1 < s.images.length
    have : 0 < s.images.length := List.length_pos.mpr hemp
    omega

lemma remove_image_shrinks (s s2 : Program) (i : Nat)
    (h : remove_image s i = some s2) :
    s2.images.length = s.images.length - 1 ∧ 0 < s.images.length := by
  unfold remove_image at h
  split at h
  · rename_i hil
    cases h
    constructor
    · show (s.images.eraseIdx i).length = _
      rw [List.length_eraseIdx]
      simp [hil]
    · omega
  · cases h

lemma step_preserves (a b : Program) (hstep : Step a b)
    (hinv : IndexInv a) (hlen : a.images.length < 2 ^ 64) :
    IndexInv b ∧ b.images.length < 2 ^ 64 := by
  cases hstep with
  | next =>
    refine ⟨increment_inv a 1 hlen (fun h2 => ⟨le_refl 1, by omega⟩) hinv, ?_⟩
    rw [increment_images]
    exact hlen
  | prev =>
    refine ⟨decrement_inv a 1 hinv, ?_⟩
    rw [decrement_images]
    exact hlen
  | skipF =>
    unfold skip_forward
    refine ⟨increment_inv a (compute_skip_size a.images) hlen ?_ hinv, ?_⟩
    · intro h2
      have := compute_skip_size_eq a.images
      constructor <;> omega
    · rw [increment_images]
      exact hlen
  | skipB =>
    unfold skip_backward
    refine ⟨decrement_inv a (compute_skip_size a.images) hinv, ?_⟩
    rw [decrement_images]
    exact hlen
  | toFirst =>
    exact ⟨first_inv a, hlen⟩
  | toLast =>
    refine ⟨last_inv a, ?_⟩
    rw [last_images]
    exact hlen
  | moveOk =>
    rename_i fs tr h
    obtain ⟨hil, hrm⟩ := move_image_ok_inversion a fs b tr h
    obtain ⟨hs2, hpos⟩ := remove_image_shrinks a b a.index hrm
    exact ⟨remove_image_index_inv a b hil hrm, by omega⟩
  | deleteOk =>
    rename_i fs tr h
    obtain ⟨hil, hrm⟩ := delete_image_ok_inversion a fs b tr h
    obtain ⟨hs2, hpos⟩ := remove_image_shrinks a b a.index hrm
    exact ⟨remove_image_index_inv a b hil hrm, by omega⟩

/-- C1: starting from the initial state (index 0) on any image list, after
any sequence of operations the event loop dispatches — `increment 1`,
`decrement 1`, skip forward/backward, first, last, and the removal done by
a successful move or delete — the index is strictly below the list length
whenever the list is non-empty, and is 0 whenever the list is empty. -/
theorem C1_index_invariant (imgs : List Path) (d : Path) (s2 : Program)
    (hlen : imgs.length < 2 ^ 64)
    (h : Relation.ReflTransGen Step (Program.mk imgs d 0) s2) :
    (s2.images ≠ [] → s2.index < s2.images.length) ∧
    (s2.images = [] → s2.index = 0) := by
  have main : IndexInv s2 ∧ s2.images.length < 2 ^ 64 := by
    induction h with
    | refl =>
      exact ⟨⟨fun hne => List.length_pos.mpr hne, fun _ => rfl⟩, hlen⟩
    | tail _ hbc ih =>
      exact step_preserves _ _ hbc ih.1 ih.2
  exact main.1

/-- Witness for C1: the empty sequence of operations on a one-image list. -/
theorem C1_index_invariant_witness :
    ((Program.mk ["a"] "d" 0).images ≠ [] →
      (Program.mk ["a"] "d" 0).index < (Program.mk ["a"] "d" 0).images.length) ∧
    ((Program.mk ["a"] "d" 0).images = [] → (Program.mk ["a"] "d" 0).index = 0) :=
  C1_index_invariant ["a"] "d" (Program.mk ["a"] "d" 0) (by norm_num)
    Relation.ReflTransGen.refl

/-! ### C2: move/delete atomicity -/

/-- C2: on a non-empty list with an in-bounds current index, if the
external filesystem operation fails then `move_image` / `delete_image`
return an error with the state exactly as before; and whenever either
returns at all, a changed state implies the call succeeded and the
filesystem operation had reported success — the in-memory removal happens
only after a successful filesystem move/removal. -/
theorem C2_move_delete_atomicity (s : Program) (fs : FsEnv)
    (hne : s.images ≠ []) (hidx : s.index < s.images.length) :
    (fs.moveOk = false →
      ∃ e tr, move_image s fs = some (s, Except.error e, tr)) ∧
    (fs.removeOk = false →
      ∃ e tr, delete_image s fs = some (s, Except.error e, tr)) ∧
    (∀ s2 r tr, move_image s fs = some (s2, r, tr) → s2 ≠ s →
      r = Except.ok () ∧ fs.moveOk = true) ∧
    (∀ s2 r tr, delete_image s fs = some (s2, r, tr) → s2 ≠ s →
      r = Except.ok () ∧ fs.removeOk = true) := by
  have hemp : s.images.isEmpty = false := by
    simp [List.isEmpty_iff, hne]
  refine ⟨?_, ?_, ?_, ?_⟩
  · intro hmv
    unfold move_image
    rw [hemp]
    simp only [Bool.false_eq_true, if_false]
    rw [dif_pos hidx]
    rcases hcd : construct_dest_filepath s fs (s.images[s.index]) with ⟨res, tr0⟩
    cases res with
    | error e => exact ⟨e, tr0, rfl⟩
    | ok newname =>
      exact ⟨"Failed to remove image",
        tr0 ++ [FsOp.moveFile (s.images[s.index]) newname], by simp [hmv]⟩
  · intro hrm
    unfold delete_image
    rw [hemp]
    simp only [Bool.false_eq_true, if_false]
    rw [dif_pos hidx]
    exact ⟨"Failed to remove image file", [FsOp.removeFile (s.images[s.index])],
      by simp [hrm]⟩
  · intro s2 r tr h hs2
    unfold move_image at h
    rw [hemp] at h
    simp only [Bool.false_eq_true, if_false] at h
    rw [dif_pos hidx] at h
    split at h
    · simp only [Option.some.injEq, Prod.mk.injEq] at h
      exact absurd h.1.symm hs2
    · split at h
      · rename_i hmv
        rw [Option.map_eq_some'] at h
        obtain ⟨a, _, hae⟩ := h
        simp only [Prod.mk.injEq] at hae
        exact ⟨hae.2.1.symm, hmv⟩
      · simp only [Option.some.injEq, Prod.mk.injEq] at h
        exact absurd h.1.symm hs2
  · intro s2 r tr h hs2
    unfold delete_image at h
    rw [hemp] at h
    simp only [Bool.false_eq_true, if_false] at h
    rw [dif_pos hidx] at h
    split at h
    · rename_i hrm
      rw [Option.map_eq_some'] at h
      obtain ⟨a, _, hae⟩ := h
      simp only [Prod.mk.injEq] at hae
      exact ⟨hae.2.1.symm, hrm⟩
    · simp only [Option.some.injEq, Prod.mk.injEq] at h
      exact absurd h.1.symm hs2

/-- Witness for C2 on a one-image program with an all-failing filesystem. -/
theorem C2_move_delete_atomicity_witness :
    ((FsEnv.mk true (fun p => some p) false false false).moveOk = false →
      ∃ e tr, move_image (Program.mk ["a"] "d" 0)
          (FsEnv.mk true (fun p => some p) false false false) =
        some (Program.mk ["a"] "d" 0, Except.error e, tr)) ∧
    ((FsEnv.mk true (fun p => some p) false false false).removeOk = false →
      ∃ e tr, delete_image (Program.mk ["a"] "d" 0)
          (FsEnv.mk true (fun p => some p) false false false) =
        some (Program.mk ["a"] "d" 0, Except.error e, tr)) ∧
    (∀ s2 r tr, move_image (Program.mk ["a"] "d" 0)
          (FsEnv.mk true (fun p => some p) false false false) = some (s2, r, tr) →
      s2 ≠ Program.mk ["a"] "d" 0 →
      r = Except.ok () ∧
        (FsEnv.mk true (fun p => some p) false false false).moveOk = true) ∧
    (∀ s2 r tr, delete_image (Program.mk ["a"] "d" 0)
          (FsEnv.mk true (fun p => some p) false false false) = some (s2, r, tr) →
      s2 ≠ Program.mk ["a"] "d" 0 →
      r = Except.ok () ∧
        (FsEnv.mk true (fun p => some p) false false false).removeOk = true) :=
  C2_move_delete_atomicity (Program.mk ["a"] "d" 0)
    (FsEnv.mk true (fun p => some p) false false false) (by decide) (by decide)

/-! ### C8: copy never mutates the state -/

/-- C8: whenever `copy_image` returns (empty or non-empty list, filesystem
success or failure), the program state it returns is exactly the input
state: copy never mutates `ImageSet` or `CurrentIndex`. -/
theorem C8_copy_frame_condition (s : Program) (fs : FsEnv) (s2 : Program)
    (r : Except String Unit) (tr : List FsOp)
    (h : copy_image s fs = some (s2, r, tr)) : s2 = s := by
  unfold copy_image at h
  split at h
  · simp only [Option.some.injEq, Prod.mk.injEq] at h
    exact h.1.symm
  · split at h
    · exact absurd h (by simp)
    · split at h
      · simp only [Option.some.injEq, Prod.mk.injEq] at h
        exact h.1.symm
      · split at h <;>
          (simp only [Option.some.injEq, Prod.mk.injEq] at h
           exact h.1.symm)

/-- Witness for C8: evaluating `copy_image` on a concrete one-image
program with a succeeding filesystem. -/
theorem C8_copy_frame_condition_witness :
    (Program.mk ["a"] "d" 0 : Program) = Program.mk ["a"] "d" 0 :=
  C8_copy_frame_condition (Program.mk ["a"] "d" 0)
    (FsEnv.mk true (fun p => some p) true true true) (Program.mk ["a"] "d" 0)
    (Except.ok ()) [FsOp.createDirAll "d", FsOp.copyFile "a" "d/a"] (by rfl)

/-! ### C9: empty-set behaviour -/

/-- C9: on an empty list, `copy_image`, `move_image` and `delete_image`
each return a "nothing to act on" error with the state unchanged and an
empty filesystem trace (no filesystem call is made), and the render step
requests a blank frame without indexing into the empty list. -/
theorem C9_empty_set_behaviour (s : Program) (fs : FsEnv)
    (he : s.images = []) :
    copy_image s fs = some (s, Except.error "No image to copy", []) ∧
    move_image s fs = some (s, Except.error "no images to move", []) ∧
    delete_image s fs = some (s, Except.error "no images to delete", []) ∧
    render_request s = some RenderReq.blank := by
  have hemp : s.images.isEmpty = true := by
    rw [he]
    rfl
  refine ⟨?_, ?_, ?_, ?_⟩
  · unfold copy_image
    rw [if_pos hemp]
  · unfold move_image
    rw [if_pos hemp]
  · unfold delete_image
    rw [if_pos hemp]
  · unfold render_request
    rw [if_pos hemp]

/-- Witness for C9 on the concrete empty program. -/
theorem C9_empty_set_behaviour_witness :
    copy_image (Program.mk [] "d" 0) (FsEnv.mk true (fun p => some p) true true true) =
      some (Program.mk [] "d" 0, Except.error "No image to copy", []) ∧
    move_image (Program.mk [] "d" 0) (FsEnv.mk true (fun p => some p) true true true) =
      some (Program.mk [] "d" 0, Except.error "no images to move", []) ∧
    delete_image (Program.mk [] "d" 0) (FsEnv.mk true (fun p => some p) true true true) =
      some (Program.mk [] "d" 0, Except.error "no images to delete", []) ∧
    render_request (Program.mk [] "d" 0) = some RenderReq.blank :=
  C9_empty_set_behaviour (Program.mk [] "d" 0)
    (FsEnv.mk true (fun p => some p) true true true) rfl

/-! ### The viewport-fit geometry and its `f32` arithmetic

Every `f32` value arising in `make_dst` comes from a `u32` cast, a quotient
of two such casts, or a product of such values, so it is nonnegative and
lies in the normal finite range of `f32`.  Such a value is represented
exactly as a dyadic number `m * 2 ^ e` with a natural significand `m` and
an integer exponent `e`; each operation rounds its exact result to 24
significant bits, round to nearest, ties to even — exactly the IEEE 754
semantics of Rust's `f32` casts, division and multiplication in this
range.  All arithmetic is on `Nat`/`Int` so the kernel can evaluate it. -/

/-- Fuel-driven floor of the base-2 logarithm (structural recursion so the
kernel can evaluate it; the fuel `n` always suffices). -/
def log2fuel : Nat → Nat → Nat
  | 0, _ => 0
  | fuel + 1, n => if n ≤ 1 then 0 else log2fuel fuel (n / 2) + 1

/-- `⌊log2 n⌋` for `n ≥ 1` (and 0 for `n = 0`). -/
def nlog2 (n : Nat) : Nat := log2fuel n n

/-- A nonnegative finite `f32` value, exactly `m * 2 ^ e`.  After rounding,
`m` fits in 24 bits (the representation is not required to be canonical). -/
structure F32 where
  m : Nat
  e : Int
deriving DecidableEq

/-- Round the nonnegative value `(num / den) * 2 ^ e` to 24 significant
bits, round to nearest, ties to even.  (A zero denominator cannot arise
for the positive inputs considered — the spec leaves zero dimensions
undefined — and is mapped to 0.) -/
def roundF32 (num den : Nat) (e : Int) : F32 :=
  if num = 0 ∨ den = 0 then F32.mk 0 0
  else
    let k0 : Int := (nlog2 num : Int) - (nlog2 den : Int)
    let k : Int :=
      if 0 ≤ k0 then (if den * 2 ^ k0.toNat ≤ num then k0 else k0 - 1)
      else (if den ≤ num * 2 ^ (-k0).toNat then k0 else k0 - 1)
    let sh : Int := 23 - k
    let N := num * 2 ^ (max sh 0).toNat
    let D := den * 2 ^ (max (-sh) 0).toNat
    let q := N / D
    let r := N % D
    let m := if 2 * r < D then q
      else if D < 2 * r then q + 1
      else if q % 2 = 0 then q else q + 1
    F32.mk m (e + k - 23)

/-- The exact value of `n as f32` for a `u32` value `n` (rounds to nearest
when `n` needs more than 24 bits). -/
def F32.ofNat (n : Nat) : F32 := roundF32 n 1 0

/-- `f32` division: the exact quotient, correctly rounded. -/
def F32.div (x y : F32) : F32 := roundF32 x.m y.m (x.e - y.e)

/-- `f32` multiplication: the exact product, correctly rounded. -/
def F32.mul (x y : F32) : F32 := roundF32 (x.m * y.m) 1 (x.e + y.e)

/-- Strict `<` on the represented values. -/
def F32.blt (x y : F32) : Bool :=
  if x.e ≤ y.e then x.m < y.m * 2 ^ (y.e - x.e).toNat
  else x.m * 2 ^ (x.e - y.e).toNat < y.m

/-- The integer part of a nonnegative `F32` value. -/
def F32.floor (x : F32) : Nat :=
  if 0 ≤ x.e then x.m * 2 ^ x.e.toNat else x.m / 2 ^ (-x.e).toNat

/-- `f32 as u32` in Rust: truncate toward zero, saturating at
`2 ^ 32 - 1` (the value is nonnegative here). -/
def F32.toU32 (x : F32) : Nat := min (2 ^ 32 - 1) x.floor

/-- `f32 as i32` in Rust: truncate toward zero, saturating at
`2 ^ 31 - 1` (the value is nonnegative here). -/
def F32.toI32 (x : F32) : Int := (min (2 ^ 31 - 1) x.floor : Nat)

/-- `u32` subtraction as compiled in a release build: wraps modulo
`2 ^ 32` on underflow. -/
def u32Sub (a b : Nat) : Nat := (a + (2 ^ 32 - b % 2 ^ 32)) % 2 ^ 32

/-- `sdl2::rect::Rect`, as constructed by `Rect::new(x, y, w, h)`: signed
position, unsigned size. -/
structure Rect where
  x : Int
  y : Int
  w : Nat
  h : Nat
deriving DecidableEq

/-- `full_rect` (src/program.rs:342-346): the unscaled source centered via
`((dst - src) as f32 / 2.0) as i32` in each dimension. -/
def full_rect (src_x src_y dst_x dst_y : Nat) : Rect :=
  let y := (F32.div (F32.ofNat (u32Sub dst_y src_y)) (F32.ofNat 2)).toI32
  let x := (F32.div (F32.ofNat (u32Sub dst_x src_x)) (F32.ofNat 2)).toI32
  Rect.mk x y src_x src_y

/-- `fit_x_rect` (src/program.rs:348-352): full destination width, height
`((src_y as f32 / src_x as f32) * dst_x as f32) as u32`, centered
vertically. -/
def fit_x_rect (src_x src_y dst_x dst_y : Nat) : Rect :=
  let height := ((F32.div (F32.ofNat src_y) (F32.ofNat src_x)).mul (F32.ofNat dst_x)).toU32
  let y := (F32.div (F32.ofNat (u32Sub dst_y height)) (F32.ofNat 2)).toI32
  Rect.mk 0 y dst_x height

/-- `fit_y_rect` (src/program.rs:354-358): full destination height, width
`((src_x as f32 / src_y as f32) * dst_y as f32) as u32`, centered
horizontally. -/
def fit_y_rect (src_x src_y dst_x dst_y : Nat) : Rect :=
  let width := ((F32.div (F32.ofNat src_x) (F32.ofNat src_y)).mul (F32.ofNat dst_y)).toU32
  let x := (F32.div (F32.ofNat (u32Sub dst_x width)) (F32.ofNat 2)).toI32
  Rect.mk x 0 width dst_y

/-- `make_dst` (src/program.rs:329-340): unscaled centering when the source
fits strictly inside the destination; otherwise the strict `f32`
aspect-ratio comparison (`src_x/src_y > dst_x/dst_y`) chooses the width-
or height-constrained fit. -/
def make_dst (src_x src_y dst_x dst_y : Nat) : Rect :=
  if src_x < dst_x ∧ src_y < dst_y then full_rect src_x src_y dst_x dst_y
  else if F32.blt (F32.div (F32.ofNat dst_x) (F32.ofNat dst_y))
      (F32.div (F32.ofNat src_x) (F32.ofNat src_y)) then
    fit_x_rect src_x src_y dst_x dst_y
  else fit_y_rect src_x src_y dst_x dst_y

/-! ### C6: the three-case fit algorithm -/

/-- C6: for positive inputs `make_dst` follows the three-case algorithm of
the spec — source strictly smaller in both dimensions: unscaled and
centered; else strict `f32` aspect-ratio comparison `srcW/srcH > dstW/dstH`:
width-constrained `(0, (dstH - height') / 2, dstW, height')` with
`height' = (srcH/srcW) * dstW`; otherwise (equal ratios included)
height-constrained.  In particular `fit(100, 50, 1000, 1000) =
(450, 475, 100, 50)` and `fit(2000, 1000, 800, 600) = (0, 100, 800, 400)`. -/
theorem C6_geometry_fit_algorithm (sw sh dw dh : Nat)
    (hsw : 0 < sw) (hsh : 0 < sh) (hdw : 0 < dw) (hdh : 0 < dh) :
    (sw < dw ∧ sh < dh →
      make_dst sw sh dw dh =
        Rect.mk ((F32.div (F32.ofNat (u32Sub dw sw)) (F32.ofNat 2)).toI32)
          ((F32.div (F32.ofNat (u32Sub dh sh)) (F32.ofNat 2)).toI32) sw sh) ∧
    (¬(sw < dw ∧ sh < dh) →
      F32.blt (F32.div (F32.ofNat dw) (F32.ofNat dh))
          (F32.div (F32.ofNat sw) (F32.ofNat sh)) = true →
      make_dst sw sh dw dh =
        Rect.mk 0
          ((F32.div (F32.ofNat (u32Sub dh
              (((F32.div (F32.ofNat sh) (F32.ofNat sw)).mul (F32.ofNat dw)).toU32)))
            (F32.ofNat 2)).toI32)
          dw
          (((F32.div (F32.ofNat sh) (F32.ofNat sw)).mul (F32.ofNat dw)).toU32)) ∧
    (¬(sw < dw ∧ sh < dh) →
      F32.blt (F32.div (F32.ofNat dw) (F32.ofNat dh))
          (F32.div (F32.ofNat sw) (F32.ofNat sh)) = false →
      make_dst sw sh dw dh =
        Rect.mk
          ((F32.div (F32.ofNat (u32Sub dw
              (((F32.div (F32.ofNat sw) (F32.ofNat sh)).mul (F32.ofNat dh)).toU32)))
            (F32.ofNat 2)).toI32)
          0
          (((F32.div (F32.ofNat sw) (F32.ofNat sh)).mul (F32.ofNat dh)).toU32)
          dh) ∧
    make_dst 100 50 1000 1000 = Rect.mk 450 475 100 50 ∧
    make_dst 2000 1000 800 600 = Rect.mk 0 100 800 400 := by
  refine ⟨?_, ?_, ?_, by decide, by decide⟩
  · intro hc
    unfold make_dst
    rw [if_pos hc]
    rfl
  · intro hc hr
    unfold make_dst
    rw [if_neg hc, if_pos hr]
    rfl
  · intro hc hr
    unfold make_dst
    rw [if_neg hc, if_neg (by rw [hr]; exact Bool.false_ne_true)]
    rfl

/-- Witness for C6 at the claim's own first example input. -/
theorem C6_geometry_fit_algorithm_witness :
    (100 < 1000 ∧ 50 < 1000 →
      make_dst 100 50 1000 1000 =
        Rect.mk ((F32.div (F32.ofNat (u32Sub 1000 100)) (F32.ofNat 2)).toI32)
          ((F32.div (F32.ofNat (u32Sub 1000 50)) (F32.ofNat 2)).toI32) 100 50) ∧
    (¬(100 < 1000 ∧ 50 < 1000) →
      F32.blt (F32.div (F32.ofNat 1000) (F32.ofNat 1000))
          (F32.div (F32.ofNat 100) (F32.ofNat 50)) = true →
      make_dst 100 50 1000 1000 =
        Rect.mk 0
          ((F32.div (F32.ofNat (u32Sub 1000
              (((F32.div (F32.ofNat 50) (F32.ofNat 100)).mul (F32.ofNat 1000)).toU32)))
            (F32.ofNat 2)).toI32)
          1000
          (((F32.div (F32.ofNat 50) (F32.ofNat 100)).mul (F32.ofNat 1000)).toU32)) ∧
    (¬(100 < 1000 ∧ 50 < 1000) →
      F32.blt (F32.div (F32.ofNat 1000) (F32.ofNat 1000))
          (F32.div (F32.ofNat 100) (F32.ofNat 50)) = false →
      make_dst 100 50 1000 1000 =
        Rect.mk
          ((F32.div (F32.ofNat (u32Sub 1000
              (((F32.div (F32.ofNat 100) (F32.ofNat 50)).mul (F32.ofNat 1000)).toU32)))
            (F32.ofNat 2)).toI32)
          0
          (((F32.div (F32.ofNat 100) (F32.ofNat 50)).mul (F32.ofNat 1000)).toU32)
          1000) ∧
    make_dst 100 50 1000 1000 = Rect.mk 450 475 100 50 ∧
    make_dst 2000 1000 800 600 = Rect.mk 0 100 800 400 :=
  C6_geometry_fit_algorithm 100 50 1000 1000 (by decide) (by decide) (by decide)
    (by decide)

/-! ### C7: geometry bounds and centering -/

/-- C7 counterexample: at the positive input
`(srcW, srcH, dstW, dstH) = (111848110, 20, 111848110, 20)` — source equal
to destination — `f32` rounding (the cast of 111848110 rounds up to
111848112 and the product `5592405.5 * 20` rounds up again) makes the
height-constrained branch return width 111848112, which exceeds the
destination width 111848110.  The claim's bound `width ≤ dstW` fails. -/
theorem C7_counterexample :
    make_dst 111848110 20 111848110 20 = Rect.mk 2147483647 0 111848112 20 ∧
    ¬ ((make_dst 111848110 20 111848110 20).w ≤ 111848110 ∧
       (make_dst 111848110 20 111848110 20).h ≤ 20) := by
  decide

/-- Idealisation of `make_dst` with the `f32` rounding removed: the
aspect-ratio comparison is exact cross-multiplication, the scaled dimension
exact integer division, the centering offsets exact halving.  This is the
second, spec-side definition used to state the amended C7. -/
def make_dst_exact (src_x src_y dst_x dst_y : Nat) : Rect :=
  if src_x < dst_x ∧ src_y < dst_y then
    Rect.mk ((dst_x - src_x) / 2 : Nat) ((dst_y - src_y) / 2 : Nat) src_x src_y
  else if dst_y * src_x > dst_x * src_y then
    Rect.mk 0 ((dst_y - src_y * dst_x / src_x) / 2 : Nat) dst_x
      (src_y * dst_x / src_x)
  else
    Rect.mk ((dst_x - src_x * dst_y / src_y) / 2 : Nat) 0
      (src_x * dst_y / src_y) dst_y

/-- C7 amended: with the arithmetic idealised as exact (no `f32` rounding),
for all positive inputs the returned rectangle never exceeds the
destination bounds and both coordinates are centered to within one unit of
the true center of the destination. -/
theorem C7_amended_geometry_bounds (sw sh dw dh : Nat)
    (hsw : 0 < sw) (hsh : 0 < sh) (hdw : 0 < dw) (hdh : 0 < dh) :
    (make_dst_exact sw sh dw dh).w ≤ dw ∧
    (make_dst_exact sw sh dw dh).h ≤ dh ∧
    |2 * (make_dst_exact sw sh dw dh).x +
      ((make_dst_exact sw sh dw dh).w : Int) - (dw : Int)| ≤ 2 ∧
    |2 * (make_dst_exact sw sh dw dh).y +
      ((make_dst_exact sw sh dw dh).h : Int) - (dh : Int)| ≤ 2 := by
  have center_off : ∀ d h : Nat, h ≤ d →
      |2 * (((d - h) / 2 : Nat) : Int) + (h : Int) - (d : Int)| ≤ 2 := by
    intro d h hle
    rw [abs_le]
    constructor <;> omega
  unfold make_dst_exact
  split
  · rename_i hc
    obtain ⟨h1, h2⟩ := hc
    refine ⟨?_, ?_, ?_, ?_⟩
    · show sw ≤ dw
      omega
    · show sh ≤ dh
      omega
    · show |2 * (((dw - sw) / 2 : Nat) : Int) + (sw : Int) - (dw : Int)| ≤ 2
      exact center_off dw sw (by omega)
    · show |2 * (((dh - sh) / 2 : Nat) : Int) + (sh : Int) - (dh : Int)| ≤ 2
      exact center_off dh sh (by omega)
  · split
    · rename_i hr
      have hh : sh * dw / sw < dh := by
        rw [Nat.div_lt_iff_lt_mul hsw]
        calc sh * dw = dw * sh := Nat.mul_comm sh dw
        _ < dh * sw := hr
      refine ⟨le_refl dw, le_of_lt hh, ?_, ?_⟩
      · show |2 * ((0 : Nat) : Int) + (dw : Int) - (dw : Int)| ≤ 2
        simp
      · show |2 * (((dh - sh * dw / sw) / 2 : Nat) : Int) +
          ((sh * dw / sw : Nat) : Int) - (dh : Int)| ≤ 2
        exact center_off dh (sh * dw / sw) (le_of_lt hh)
    · rename_i hr
      have hle : dh * sw ≤ dw * sh := Nat.le_of_not_lt hr
      have hw : sw * dh / sh ≤ dw := by
        have h2 : sw * dh / sh ≤ dw * sh / sh :=
          Nat.div_le_div_right (by calc sw * dh = dh * sw := Nat.mul_comm sw dh
            _ ≤ dw * sh := hle)
        rwa [Nat.mul_div_cancel dw hsh] at h2
      refine ⟨hw, le_refl dh, ?_, ?_⟩
      · show |2 * (((dw - sw * dh / sh) / 2 : Nat) : Int) +
          ((sw * dh / sh : Nat) : Int) - (dw : Int)| ≤ 2
        exact center_off dw (sw * dh / sh) hw
      · show |2 * ((0 : Nat) : Int) + (dh : Int) - (dh : Int)| ≤ 2
        simp

/-- Witness for the amended C7 at the claim's first example input. -/
theorem C7_amended_geometry_bounds_witness :
    (make_dst_exact 100 50 1000 1000).w ≤ 1000 ∧
    (make_dst_exact 100 50 1000 1000).h ≤ 1000 ∧
    |2 * (make_dst_exact 100 50 1000 1000).x +
      ((make_dst_exact 100 50 1000 1000).w : Int) - (1000 : Int)| ≤ 2 ∧
    |2 * (make_dst_exact 100 50 1000 1000).y +
      ((make_dst_exact 100 50 1000 1000).h : Int) - (1000 : Int)| ≤ 2 :=
  C7_amended_geometry_bounds 100 50 1000 1000 (by decide) (by decide) (by decide)
    (by decide)

end Riv
